import Mathlib

/-!
# Verification of the awesome-popular-repos local-first cache and query engine

Shallow embedding of the storage layer of the repository (`src/js/utils/storage.js`),
query engine (`src/js/components/SearchBar.js`, `FilterPanel.applyFilters`) and
sync coordinator (`admin.js` API wrappers), together with proofs settling the
spec claims.

Modelling conventions:
- JS objects holding project/category records become Lean structures. Fields
  that may be absent in JS are modelled as the empty string `""` where the code
  distinguishes absence only through truthiness (`""` and `undefined` are both
  falsy and neither is `===`-equal to any non-empty string constant), and as
  `Option` where key presence itself matters (update objects, import payloads).
- `localStorage` keyed state becomes a `StorageState` record with one field per
  storage key; `set` stores `some v`, an untouched key is `none`, and the
  JSON stringify/parse round trip on write/read is the identity on the stored
  value (JSON-representable data round-trips).
- The raw `get` of storage.js is additionally modelled at the string level,
  parameterised by the parse function, to capture its error handling.
- Async remote calls become an explicit remote-outcome argument (the call may
  throw, or return a result object whose `success` field is true or false).
-/

/-- JS `a || b` on strings: `""` (and absent, conflated with `""`) is falsy. -/
def jsOrStr (v d : String) : String :=
  if v == "" then d else v

/-- Test whether `needle` occurs at the head of `hay`. -/
def charsLeadMatch : List Char → List Char → Bool
  | [], _ => true
  | _ :: _, [] => false
  | a :: as, b :: bs => a == b && charsLeadMatch as bs

/-- Test whether `needle` occurs somewhere inside `hay`. -/
def charsContain (hay needle : List Char) : Bool :=
  match hay with
  | [] => charsLeadMatch needle []
  | _ :: rest => charsLeadMatch needle hay || charsContain rest needle

/-- JS `String.prototype.includes`: substring containment. -/
def jsIncludes (s sub : String) : Bool :=
  charsContain s.toList sub.toList

/-- JS `String.prototype.toLowerCase`, as a character-wise map (the code
only lowercases for case-insensitive comparison of names, owners,
descriptions, languages and tags). -/
def jsToLower (s : String) : String :=
  String.mk (s.toList.map Char.toLower)

/-- Project record (storage.js / schema.sql shape). Absent string fields are
modelled as `""` (see module conventions). -/
structure Project where
  id : String
  name : String
  owner : String
  description : String
  github_url : String
  stars : Int
  language : String
  category : String
  tags : List String
  created_at : String
  updated_at : String
deriving DecidableEq

/-- Category record. -/
structure Category where
  id : String
  name : String
  slug : String
  description : String
deriving DecidableEq

/-- Settings object: an open key-value mapping, modelled as an association
list in JS key insertion order (values are strings; only string-valued
settings occur in the code). -/
def SettingsObj : Type := List (String × String)

instance : DecidableEq SettingsObj := by
  unfold SettingsObj
  infer_instance

/-- First value bound to key `k`, as JS property lookup on an object whose
entries are listed in insertion order. -/
def lookupKey (l : SettingsObj) (k : String) : Option String :=
  (l.find? (fun kv => kv.1 == k)).map (·.2)

/-- JS object spread `{...a, ...b}`: keys of `a` in order (values overridden
by `b` where `b` has the key), then keys of `b` not present in `a`. -/
def jsMerge (a b : SettingsObj) : SettingsObj :=
  a.map (fun kv => (kv.1, (lookupKey b kv.1).getD kv.2))
    ++ b.filter (fun kv => (lookupKey a kv.1).isNone)

/-- A well-formed JS object has no duplicate keys. -/
def keysNodup (l : SettingsObj) : Prop :=
  (l.map Prod.fst).Nodup

instance (l : SettingsObj) : Decidable (keysNodup l) := by
  unfold keysNodup
  infer_instance

/-- The `localStorage` slice of the application: one field per storage key
(`awesome_repos_projects`, `_categories`, `_tags`, `_favorites`, `_settings`,
`_data_version`). `none` models an unset key; `set` writes `some v`. -/
structure StorageState where
  projects : Option (List Project)
  categories : Option (List Category)
  tags : Option (List String)
  favorites : Option (List String)
  settings : Option SettingsObj
  dataVersion : Option String
deriving DecidableEq

/-- storage.js `getProjects()`: `get(KEYS.PROJECTS, [])`. -/
def getProjects (s : StorageState) : List Project :=
  s.projects.getD []

/-- storage.js `setProjects(projects)`. -/
def setProjects (ps : List Project) (s : StorageState) : StorageState :=
  { s with projects := some ps }

/-- storage.js `getCategories()`. -/
def getCategories (s : StorageState) : List Category :=
  s.categories.getD []

/-- storage.js `setCategories(categories)`. -/
def setCategories (cs : List Category) (s : StorageState) : StorageState :=
  { s with categories := some cs }

/-- storage.js `getTags()`. -/
def getTags (s : StorageState) : List String :=
  s.tags.getD []

/-- storage.js `setTags(tags)`. -/
def setTags (ts : List String) (s : StorageState) : StorageState :=
  { s with tags := some ts }

/-- storage.js `getFavorites()`: `get(KEYS.FAVORITES, [])`. -/
def getFavorites (s : StorageState) : List String :=
  s.favorites.getD []

/-- storage.js `set(KEYS.FAVORITES, favorites)` (used directly by
`toggleFavorite` and `importData`). -/
def setFavoritesRaw (fs : List String) (s : StorageState) : StorageState :=
  { s with favorites := some fs }

/-- The default settings object of `getSettings`. -/
def defaultSettings : SettingsObj :=
  [("theme", "dark"), ("sortBy", "stars"), ("sortOrder", "desc")]

/-- storage.js `getSettings()`: `get(KEYS.SETTINGS, \x7btheme: "dark", sortBy: "stars", sortOrder: "desc"\x7d)`. -/
def getSettings (s : StorageState) : SettingsObj :=
  s.settings.getD defaultSettings

/-- storage.js `setSettings(settings)`: `set(KEYS.SETTINGS, { ...getSettings(), ...settings })`. -/
def setSettings (newSettings : SettingsObj) (s : StorageState) : StorageState :=
  { s with settings := some (jsMerge (getSettings s) newSettings) }

/-! ## Project mutations (storage.js) -/

/-- storage.js `addProject(project)`:
`project.id = project.id || Date.now().toString()`,
`project.created_at = project.created_at || today`,
`project.updated_at = today`, then push onto the list. The generated id
(`Date.now().toString()`) and the current date string are explicit arguments.
Returns the completed entity and the new list. -/
def addProject (genId today : String) (project : Project) (projects : List Project) :
    Project × List Project :=
  let p := { project with
    id := jsOrStr project.id genId
    created_at := jsOrStr project.created_at today
    updated_at := today }
  (p, projects ++ [p])

/-- An update object passed to `updateProject`: each field is present
(`some`) or absent (`none`) as a key of the JS object. -/
structure ProjectUpdate where
  id : Option String := none
  name : Option String := none
  owner : Option String := none
  description : Option String := none
  github_url : Option String := none
  stars : Option Int := none
  language : Option String := none
  category : Option String := none
  tags : Option (List String) := none
  created_at : Option String := none
  updated_at : Option String := none
deriving DecidableEq

/-- The merged entry `{ ...projects[index], ...updates, updated_at: today }`:
every key present in `updates` overrides the old value, and the trailing
`updated_at:` literal overrides both. -/
def mergeProject (old : Project) (u : ProjectUpdate) (today : String) : Project :=
  { id := u.id.getD old.id
    name := u.name.getD old.name
    owner := u.owner.getD old.owner
    description := u.description.getD old.description
    github_url := u.github_url.getD old.github_url
    stars := u.stars.getD old.stars
    language := u.language.getD old.language
    category := u.category.getD old.category
    tags := u.tags.getD old.tags
    created_at := u.created_at.getD old.created_at
    updated_at := today }

/-- storage.js `updateProject(id, updates)` on the projects list:
`findIndex(p => p.id === id)` locates the first entry with the id; if found
it is replaced by the merged entry (which is also returned), otherwise the
list is unchanged and `null` is returned. Modelled by direct recursion,
which replaces exactly the first match. -/
def updateProject (id : String) (u : ProjectUpdate) (today : String) :
    List Project → List Project × Option Project
  | [] => ([], none)
  | p :: ps =>
    if p.id == id then
      let merged := mergeProject p u today
      (merged :: ps, some merged)
    else
      let r := updateProject id u today ps
      (p :: r.1, r.2)

/-- storage.js `deleteProject(id)`: `getProjects().filter(p => p.id !== id)`. -/
def deleteProject (id : String) (projects : List Project) : List Project :=
  projects.filter (fun p => !(p.id == id))

/-- storage.js `toggleFavorite(projectId)`: `indexOf` finds the first
occurrence; absent → `push` to the end and return `true`; present →
`splice` it out and return `false`. Modelled by direct recursion removing
exactly the first occurrence. -/
def toggleFavList (projectId : String) : List String → List String × Bool
  | [] => ([projectId], true)
  | y :: ys =>
    if y == projectId then (ys, false)
    else
      let r := toggleFavList projectId ys
      (y :: r.1, r.2)

/-- State-level `toggleFavorite`: reads favorites, toggles, writes back. -/
def toggleFavorite (projectId : String) (s : StorageState) : StorageState × Bool :=
  let r := toggleFavList projectId (getFavorites s)
  (setFavoritesRaw r.1 s, r.2)

/-- storage.js `isFavorite(projectId)`: `getFavorites().includes(projectId)`. -/
def isFavorite (projectId : String) (s : StorageState) : Bool :=
  (getFavorites s).contains projectId

/-! ## Export / import (storage.js) -/

/-- The object produced by `exportAllData()`. -/
structure ExportData where
  projects : List Project
  categories : List Category
  tags : List String
  favorites : List String
  settings : SettingsObj
  exportedAt : String
deriving DecidableEq

/-- storage.js `exportAllData()` (the `exportedAt` timestamp is an explicit
argument). -/
def exportAllData (s : StorageState) (now : String) : ExportData :=
  { projects := getProjects s
    categories := getCategories s
    tags := getTags s
    favorites := getFavorites s
    settings := getSettings s
    exportedAt := now }

/-- An object passed to `importData(data)`: each collection key may be
absent (or null/undefined, the falsy cases of `if (data.projects)` etc.);
a present array or object is truthy even when empty. -/
structure ImportData where
  projects : Option (List Project) := none
  categories : Option (List Category) := none
  tags : Option (List String) := none
  favorites : Option (List String) := none
  settings : Option SettingsObj := none
deriving DecidableEq

/-- Passing an export object to `importData`: every collection field is
present (arrays and objects are truthy in JS); `exportedAt` is not read by
`importData`. -/
def ExportData.toImport (d : ExportData) : ImportData :=
  { projects := some d.projects
    categories := some d.categories
    tags := some d.tags
    favorites := some d.favorites
    settings := some d.settings }

/-- storage.js `importData(data)`: for each collection present in the
supplied object, overwrite it (`setProjects` / `setCategories` / `setTags` /
raw `set` for favorites / `setSettings` for settings); absent collections
are untouched. -/
def importData (d : ImportData) (s : StorageState) : StorageState :=
  let s1 := match d.projects with
    | some ps => setProjects ps s
    | none => s
  let s2 := match d.categories with
    | some cs => setCategories cs s1
    | none => s1
  let s3 := match d.tags with
    | some ts => setTags ts s2
    | none => s2
  let s4 := match d.favorites with
    | some fs => setFavoritesRaw fs s3
    | none => s3
  match d.settings with
  | some st => setSettings st s4
  | none => s4

/-! ## Raw cache read (storage.js `get`) -/

/-- storage.js `get(key, defaultValue)` at the string level, parameterised
by the underlying medium (`localStorage` contents) and the parse function
(`JSON.parse`; `none` models a thrown parse error). A `null` read or any
thrown error yields the default of the caller; the function is total, so no
error escapes. -/
def rawGet {α : Type} (store : String → Option String) (parse : String → Option α)
    (key : String) (defaultValue : α) : α :=
  match store key with
  | none => defaultValue
  | some item =>
    match parse item with
    | some v => v
    | none => defaultValue

/-! ## Query engine: text search (SearchBar.js) -/

/-- SearchBar.js `searchProjects(projects, query)`: falsy (empty) query
returns the input; otherwise case-insensitive substring match against
name, owner, description, language and each tag (description and language
are matched only when truthy). -/
def searchProjects (projects : List Project) (query : String) : List Project :=
  if query == "" then projects
  else
    let lowerQuery := jsToLower query
    projects.filter (fun project =>
      jsIncludes (jsToLower project.name) lowerQuery
        || jsIncludes (jsToLower project.owner) lowerQuery
        || (!(project.description == "") && jsIncludes (jsToLower project.description) lowerQuery)
        || (!(project.language == "") && jsIncludes (jsToLower project.language) lowerQuery)
        || project.tags.any (fun tag => jsIncludes (jsToLower tag) lowerQuery))

/-! ## Query engine: facet filters and sort (FilterPanel `applyFilters`) -/

/-- The filter state object: `language`/`category`/`sort` are strings
(`""` models an absent/falsy value), `showFavorites` is a boolean. -/
structure Filters where
  language : String := "all"
  category : String := "all"
  sort : String := "stars-desc"
  showFavorites : Bool := false
deriving DecidableEq

/-- Source shape: `if (b) \x7b result = result.filter(p) \x7d`. -/
def condFilter {α : Type} (b : Bool) (p : α → Bool) (l : List α) : List α :=
  if b then l.filter p else l

/-- Source: `if (filters.language && filters.language !== "all") result = result.filter(...)`, matching on the language field. -/
def languageStage (f : Filters) (result : List Project) : List Project :=
  condFilter (!(f.language == "") && !(f.language == "all"))
    (fun p => p.language == f.language) result

/-- Source: `if (filters.category && filters.category !== "all") result = result.filter(...)`, matching on the category field. -/
def categoryStage (f : Filters) (result : List Project) : List Project :=
  condFilter (!(f.category == "") && !(f.category == "all"))
    (fun p => p.category == f.category) result

/-- Source: `if (filters.showFavorites) result = result.filter(p => favorites.includes(p.id))`. -/
def favoritesStage (f : Filters) (favorites : List String) (result : List Project) :
    List Project :=
  condFilter f.showFavorites (fun p => favorites.contains p.id) result

/-- Split a character list at every occurrence of the separator. -/
def splitChars (sep : Char) : List Char → List (List Char)
  | [] => [[]]
  | c :: cs =>
    let r := splitChars sep cs
    if c == sep then [] :: r
    else
      match r with
      | [] => [[c]]
      | h :: t => (c :: h) :: t

/-- JS `String.prototype.split(sep)` for a one-character separator:
`"stars-desc".split('-') = ["stars","desc"]`, `"foo".split('-') = ["foo"]`. -/
def jsSplit (s : String) (sep : Char) : List String :=
  (splitChars sep s.toList).map (fun l => String.mk l)

/-- Stable insertion into a sorted list under a JS comparator: `x` goes
before the first element it does not compare greater than (ties keep the
earlier element first, matching the stable `Array.prototype.sort`). -/
def insertCmp {α : Type} (c : α → α → Int) (x : α) : List α → List α
  | [] => [x]
  | y :: ys => if c x y ≤ 0 then x :: y :: ys else y :: insertCmp c x ys

/-- Stable sort by a JS comparator (insertion sort; `Array.prototype.sort`
is stable). -/
def stableSortBy {α : Type} (c : α → α → Int) : List α → List α
  | [] => []
  | x :: xs => insertCmp c x (stableSortBy c xs)

/-- The comparator built inside `applyFilters` from `[field, order] =
filters.sort.split('-')`. `localeCmp` models `String.prototype.localeCompare`
and `dateVal` models `new Date(str).getTime()`; both are parameters because
their exact semantics are host-defined. `ord` is `none` when the sort string
has no `-` part (`order` is then `undefined`, which is not `"asc"`). -/
def projCmp (localeCmp : String → String → Int) (dateVal : String → Int)
    (field : String) (ord : Option String) (a b : Project) : Int :=
  if field == "stars" then
    if ord == some "asc" then a.stars - b.stars else b.stars - a.stars
  else if field == "name" then
    if ord == some "asc" then localeCmp (jsToLower a.name) (jsToLower b.name)
    else localeCmp (jsToLower b.name) (jsToLower a.name)
  else if field == "updated" then
    if ord == some "asc" then dateVal a.updated_at - dateVal b.updated_at
    else dateVal b.updated_at - dateVal a.updated_at
  else 0

/-- Source: `if (filters.sort) \x7b ... result.sort(comparator) \x7d` —
the sort stage of `applyFilters`. -/
def sortStage (localeCmp : String → String → Int) (dateVal : String → Int)
    (f : Filters) (result : List Project) : List Project :=
  if !(f.sort == "") then
    let parts := jsSplit f.sort '-'
    let field := (parts.get? 0).getD ""
    let ord := parts.get? 1
    stableSortBy (projCmp localeCmp dateVal field ord) result
  else result

/-- FilterPanel `applyFilters(projects, filters, favorites)`: language,
category and favorites filters in source order, then the sort stage. -/
def applyFilters (localeCmp : String → String → Int) (dateVal : String → Int)
    (projects : List Project) (f : Filters) (favorites : List String) : List Project :=
  sortStage localeCmp dateVal f
    (favoritesStage f favorites (categoryStage f (languageStage f projects)))

/-! ## Sync coordinator wrappers (admin.js) -/

/-- Outcome of an awaited `apiRequest`: the call may throw (network
failure), or return a parsed result object whose `success` field is truthy
or falsy. For project creation the result may carry a server-normalized
`project` (`result.project || projectData`). -/
inductive RemoteAddResult where
  | threw
  | returned (success : Bool) (project : Option Project)
deriving DecidableEq

/-- Outcome of an awaited remote delete. -/
inductive RemoteDeleteResult where
  | threw
  | returned (success : Bool)
deriving DecidableEq

/-- admin.js `addProjectToApi(projectData)`: the request body is
`JSON.stringify(projectData)` as-is; on `result.success` the local mirror
appends `result.project || projectData` via `addProject`; on a falsy
result nothing local happens; on a thrown error `addProject(projectData)`
runs as the local fallback. Returns (entity sent to the remote, new local
projects list, whether the outcome was local-only). -/
def addProjectToApi (remote : RemoteAddResult) (genId today : String)
    (projectData : Project) (projects : List Project) :
    Project × List Project × Bool :=
  let sent := projectData
  match remote with
  | RemoteAddResult.returned true p? =>
    (sent, (addProject genId today (p?.getD projectData) projects).2, false)
  | RemoteAddResult.returned false _ => (sent, projects, false)
  | RemoteAddResult.threw =>
    (sent, (addProject genId today projectData projects).2, true)

/-- admin.js `deleteProjectFromApi(id)`: on `result.success` the local
`deleteProject(id)` runs; on a falsy result the function returns without
touching the local mirror; on a thrown error `deleteProject(id)` runs as
the local fallback. Returns the new local projects list. -/
def deleteProjectFromApi (remote : RemoteDeleteResult) (id : String)
    (projects : List Project) : List Project :=
  match remote with
  | RemoteDeleteResult.returned true => deleteProject id projects
  | RemoteDeleteResult.returned false => projects
  | RemoteDeleteResult.threw => deleteProject id projects

/-! ## Helper lemmas -/

/-- In an object with no duplicate keys, looking up the key of any entry
finds exactly the value of that entry. -/
theorem lookupKey_self (a : List (String × String)) (h : (a.map Prod.fst).Nodup) :
    ∀ kv ∈ a, lookupKey a kv.1 = some kv.2 := by
  induction a with
  | nil => intro kv hkv; cases hkv
  | cons x xs ih =>
    intro kv hkv
    simp only [List.map_cons, List.nodup_cons] at h
    rcases List.mem_cons.mp hkv with hkv | hkv
    · subst hkv
      simp [lookupKey, List.find?]
    · have hne : x.1 ≠ kv.1 := by
        intro heq
        apply h.1
        rw [heq]
        exact List.mem_map_of_mem Prod.fst hkv
      have hbeq : (x.1 == kv.1) = false := beq_eq_false_iff_ne.mpr hne
      have ihh := ih h.2 kv hkv
      simp only [lookupKey, List.find?, hbeq] at ihh ⊢
      exact ihh

/-- A map that fixes every element of the list is the identity. -/
theorem map_id_on {α : Type} (f : α → α) (l : List α) (h : ∀ x ∈ l, f x = x) :
    l.map f = l := by
  induction l with
  | nil => rfl
  | cons x xs ih =>
    simp only [List.map_cons]
    rw [h x (List.mem_cons_self x xs), ih (fun y hy => h y (List.mem_cons_of_mem x hy))]

/-- A filter whose predicate rejects every element of the list is empty. -/
theorem filter_false_on {α : Type} (p : α → Bool) (l : List α)
    (h : ∀ x ∈ l, p x = false) : l.filter p = [] := by
  induction l with
  | nil => rfl
  | cons x xs ih =>
    rw [List.filter_cons, h x (List.mem_cons_self x xs),
      ih (fun y hy => h y (List.mem_cons_of_mem x hy))]
    simp

/-- Spreading an object with itself is the identity: `{...a, ...a} = a`. -/
theorem jsMerge_self (a : SettingsObj) (h : keysNodup a) : jsMerge a a = a := by
  unfold keysNodup at h
  unfold jsMerge
  rw [map_id_on _ a (fun kv hkv => by rw [lookupKey_self a h kv hkv]; rfl),
    filter_false_on _ a (fun kv hkv => by rw [lookupKey_self a h kv hkv]; rfl)]
  simp

/-- Two filters commute. -/
theorem filter_swap {α : Type} (p q : α → Bool) (l : List α) :
    (l.filter p).filter q = (l.filter q).filter p := by
  simp only [List.filter_filter]
  exact List.filter_congr (fun a _ => Bool.and_comm _ _)

/-- Conditional filter stages commute. -/
theorem condFilter_swap {α : Type} (b₁ b₂ : Bool) (p₁ p₂ : α → Bool) (l : List α) :
    condFilter b₁ p₁ (condFilter b₂ p₂ l) = condFilter b₂ p₂ (condFilter b₁ p₁ l) := by
  cases b₁ <;> cases b₂
  · rfl
  · rfl
  · rfl
  · exact filter_swap p₂ p₁ l

/-- Under a comparator that never strictly orders, stable insertion is
`cons`. -/
theorem insertCmp_of_zero {α : Type} (c : α → α → Int) (hz : ∀ a b, c a b = 0)
    (x : α) (l : List α) : insertCmp c x l = x :: l := by
  cases l with
  | nil => rfl
  | cons y ys => simp [insertCmp, hz]

/-- A stable sort under a comparator that never strictly orders is the
identity. -/
theorem stableSortBy_of_zero {α : Type} (c : α → α → Int) (hz : ∀ a b, c a b = 0) :
    ∀ l : List α, stableSortBy c l = l := by
  intro l
  induction l with
  | nil => rfl
  | cons x xs ih => rw [stableSortBy, ih, insertCmp_of_zero c hz]

/-- The value returned by `toggleFavorite` is `true` exactly when the id was absent. -/
theorem toggleFavList_snd (x : String) (l : List String) :
    (toggleFavList x l).2 = !(l.contains x) := by
  induction l with
  | nil => rfl
  | cons y ys ih =>
    by_cases hyx : y = x
    · subst hyx
      simp [toggleFavList]
    · have hb : (y == x) = false := beq_eq_false_iff_ne.mpr hyx
      have hb' : (x == y) = false := beq_eq_false_iff_ne.mpr (Ne.symm hyx)
      have h1 : (toggleFavList x (y :: ys)).2 = (toggleFavList x ys).2 := by
        simp [toggleFavList, hb]
      have h2 : (y :: ys).contains x = ys.contains x := by
        simp only [List.contains_cons, hb', Bool.false_or]
      rw [h1, h2, ih]

/-- Toggling an absent id appends it. -/
theorem toggleFavList_of_not_mem (x : String) (l : List String) (h : x ∉ l) :
    toggleFavList x l = (l ++ [x], true) := by
  induction l with
  | nil => rfl
  | cons y ys ih =>
    have hyx : y ≠ x := fun heq => h (heq ▸ List.mem_cons_self y ys)
    have hb : (y == x) = false := beq_eq_false_iff_ne.mpr hyx
    have hys : x ∉ ys := fun hm => h (List.mem_cons_of_mem y hm)
    simp [toggleFavList, hb, ih hys]

/-- On a duplicate-free list, toggling the same id twice permutes the list
back to its original contents. -/
theorem toggleFavList_double_perm (x : String) (l : List String) (h : l.Nodup) :
    (toggleFavList x (toggleFavList x l).1).1.Perm l := by
  induction l with
  | nil =>
    simp [toggleFavList]
  | cons y ys ih =>
    rcases List.nodup_cons.mp h with ⟨hy, hys⟩
    by_cases hyx : y = x
    · subst hyx
      rw [show toggleFavList y (y :: ys) = (ys, false) by simp [toggleFavList]]
      rw [toggleFavList_of_not_mem y ys hy]
      exact List.perm_append_singleton y ys
    · have hb : (y == x) = false := beq_eq_false_iff_ne.mpr hyx
      have h1 : toggleFavList x (y :: ys) = (y :: (toggleFavList x ys).1, (toggleFavList x ys).2) := by
        simp [toggleFavList, hb]
      rw [h1]
      have h2 : toggleFavList x (y :: (toggleFavList x ys).1)
          = (y :: (toggleFavList x (toggleFavList x ys).1).1,
             (toggleFavList x (toggleFavList x ys).1).2) := by
        simp [toggleFavList, hb]
      rw [h2]
      exact List.Perm.cons y (ih hys)

/-- The entry returned by `updateProject` is the merge of the first entry
whose id matches. -/
theorem updateProject_snd (id : String) (u : ProjectUpdate) (today : String)
    (ps : List Project) :
    (updateProject id u today ps).2
      = (ps.find? (fun p => p.id == id)).map (fun old => mergeProject old u today) := by
  induction ps with
  | nil => rfl
  | cons p ps ih =>
    cases hp : p.id == id <;> simp [updateProject, List.find?, hp, ih]

/-- When a matching entry exists, the merged entry is stored in the
resulting list. -/
theorem updateProject_mem (id : String) (u : ProjectUpdate) (today : String)
    (ps : List Project) (old : Project)
    (h : ps.find? (fun p => p.id == id) = some old) :
    mergeProject old u today ∈ (updateProject id u today ps).1 := by
  induction ps with
  | nil => cases h
  | cons p ps ih =>
    cases hp : p.id == id
    · rw [List.find?] at h
      rw [hp] at h
      have hrec : (updateProject id u today (p :: ps)).1
          = p :: (updateProject id u today ps).1 := by
        simp [updateProject, hp]
      rw [hrec]
      exact List.mem_cons_of_mem p (ih h)
    · rw [List.find?] at h
      rw [hp] at h
      cases h
      simp [updateProject, hp]

/-- The result of `jsOrStr` is never `""` when its fallback is non-empty. -/
theorem jsOrStr_ne_empty (v d : String) (hd : d ≠ "") : jsOrStr v d ≠ "" := by
  unfold jsOrStr
  by_cases hv : v = ""
  · simp [hv, hd]
  · simp [beq_eq_false_iff_ne.mpr hv, hv]

/-! ## Concrete sample data for witnesses and counterexamples -/

/-- A fully-populated sample project. -/
def sampleProjectA : Project :=
  { id := "1", name := "alpha", owner := "acme", description := "a tool",
    github_url := "https://example.com/acme/alpha", stars := 10, language := "Go",
    category := "tools", tags := ["cli"], created_at := "2020-01-01",
    updated_at := "2020-06-01" }

/-- A second sample project with different sort keys. -/
def sampleProjectB : Project :=
  { id := "2", name := "beta", owner := "acme", description := "",
    github_url := "", stars := 500, language := "Rust",
    category := "tools", tags := [], created_at := "2021-01-01",
    updated_at := "2021-06-01" }

/-- A project object as submitted by a caller before creation: id and dates
missing. -/
def sampleBlankProject : Project :=
  { id := "", name := "gamma", owner := "acme", description := "",
    github_url := "", stars := 0, language := "", category := "", tags := [],
    created_at := "", updated_at := "" }

/-- A sample storage state. -/
def sampleState : StorageState :=
  { projects := some [sampleProjectA], categories := none,
    tags := some ["cli"], favorites := some ["1", "9"],
    settings := some [("theme", "light")], dataVersion := some "1.0.0" }

/-- An update object touching only `name`. -/
def sampleUpdate : ProjectUpdate := { name := some "alpha2" }

/-- An update object that carries a `created_at` key. -/
def sampleCreatedUpdate : ProjectUpdate := { created_at := some "1999-12-31" }

/-- A filter state whose sort string has an unknown field part. -/
def sampleUnknownSortFilters : Filters := { sort := "foo-asc" }

/-! ## Claims -/

/-- C1: for every storage state, `importData(exportAllData())` leaves every
collection (projects, categories, tags, favorites, settings) observably
identical to its state before the export. (The only hypothesis is that the
current settings object has no duplicate keys, which holds of every JS
object.) -/
theorem claim1_import_export_round_trip (s : StorageState) (now : String)
    (h : keysNodup (getSettings s)) :
    getProjects (importData (exportAllData s now).toImport s) = getProjects s ∧
    getCategories (importData (exportAllData s now).toImport s) = getCategories s ∧
    getTags (importData (exportAllData s now).toImport s) = getTags s ∧
    getFavorites (importData (exportAllData s now).toImport s) = getFavorites s ∧
    getSettings (importData (exportAllData s now).toImport s) = getSettings s := by
  refine ⟨rfl, rfl, rfl, rfl, ?_⟩
  show getSettings _ = getSettings s
  simp only [importData, exportAllData, ExportData.toImport, setProjects, setCategories,
    setTags, setFavoritesRaw, setSettings, getSettings, Option.getD_some]
  exact jsMerge_self _ h

/-- Witness for C1 at a concrete populated state. -/
theorem claim1_witness :
    getProjects (importData (exportAllData sampleState "t0").toImport sampleState)
        = getProjects sampleState ∧
    getCategories (importData (exportAllData sampleState "t0").toImport sampleState)
        = getCategories sampleState ∧
    getTags (importData (exportAllData sampleState "t0").toImport sampleState)
        = getTags sampleState ∧
    getFavorites (importData (exportAllData sampleState "t0").toImport sampleState)
        = getFavorites sampleState ∧
    getSettings (importData (exportAllData sampleState "t0").toImport sampleState)
        = getSettings sampleState :=
  claim1_import_export_round_trip sampleState "t0" (by decide)

/-- C2 counterexample: when the remote delete returns an unsuccessful
result (`success` falsy), the entry is NOT removed from the local mirror,
contradicting the claim that the local entry is removed regardless of the
remote outcome. -/
theorem claim2_counterexample :
    deleteProjectFromApi (RemoteDeleteResult.returned false) "1" [sampleProjectA]
        = [sampleProjectA]
      ∧ sampleProjectA.id = "1" := by
  constructor
  · rfl
  · rfl

/-- C2 amended: the local mirror entry is removed when the remote delete
succeeds or throws; when the remote call returns an unsuccessful result,
the local mirror is left unchanged. The local removal (`deleteProject`)
drops every entry with the id. -/
theorem claim2_local_delete_on_success_or_throw (remote : RemoteDeleteResult)
    (id : String) (ps : List Project) :
    deleteProjectFromApi remote id ps
      = (match remote with
        | RemoteDeleteResult.returned false => ps
        | _ => deleteProject id ps) ∧
    (deleteProject id ps).all (fun p => !(p.id == id)) = true := by
  constructor
  · cases remote with
    | threw => rfl
    | returned success => cases success <;> rfl
  · simp [deleteProject, List.all_filter]

/-- C3 counterexample: an update object that itself contains a `created_at`
key rewrites the `created_at` of the stored entry, contradicting the claim that
`updateProject` never changes it. -/
theorem claim3_counterexample :
    (updateProject "1" sampleCreatedUpdate "2024-05-05" [sampleProjectA]).2.map
        Project.created_at = some "1999-12-31"
      ∧ sampleProjectA.created_at = "2020-01-01" := by
  constructor
  · rfl
  · rfl

/-- C3 amended: for the first stored entry matching the id, `updateProject`
stores and returns the merged entry, whose `updated_at` is always the
current date; `created_at` is unchanged provided the update object does not
itself contain a `created_at` key. -/
theorem claim3_update_refreshes_updated_at (id : String) (u : ProjectUpdate)
    (today : String) (ps : List Project) (old : Project)
    (hfind : ps.find? (fun p => p.id == id) = some old)
    (hu : u.created_at = none) :
    (updateProject id u today ps).2 = some (mergeProject old u today) ∧
    mergeProject old u today ∈ (updateProject id u today ps).1 ∧
    (mergeProject old u today).updated_at = today ∧
    (mergeProject old u today).created_at = old.created_at := by
  refine ⟨?_, updateProject_mem id u today ps old hfind, rfl, ?_⟩
  · rw [updateProject_snd, hfind]
    rfl
  · simp [mergeProject, hu]

/-- Witness for C3 (amended) at a concrete list and update. -/
theorem claim3_witness :
    (updateProject "1" sampleUpdate "2024-05-05" [sampleProjectA]).2
        = some (mergeProject sampleProjectA sampleUpdate "2024-05-05") ∧
    mergeProject sampleProjectA sampleUpdate "2024-05-05"
        ∈ (updateProject "1" sampleUpdate "2024-05-05" [sampleProjectA]).1 ∧
    (mergeProject sampleProjectA sampleUpdate "2024-05-05").updated_at = "2024-05-05" ∧
    (mergeProject sampleProjectA sampleUpdate "2024-05-05").created_at
        = sampleProjectA.created_at :=
  claim3_update_refreshes_updated_at "1" sampleUpdate "2024-05-05" [sampleProjectA]
    sampleProjectA (by decide) rfl

/-- C4 counterexample: a whitespace-only query is NOT an identity pass —
`searchProjects` only special-cases the empty string, so `" "` is treated
as an ordinary substring query and filters out non-matching projects. -/
theorem claim4_counterexample :
    searchProjects [sampleProjectB] " " ≠ [sampleProjectB] := by decide

/-- C4 amended: for the empty query string, `searchProjects` returns the
input list unchanged (the function is pure, so the input is not mutated);
whitespace-only queries are not special-cased by `searchProjects` itself
(the search bar trims input before calling it). -/
theorem claim4_empty_query_identity (projects : List Project) :
    searchProjects projects "" = projects := rfl

/-- C5: for every non-empty query, every element of the search result is an
element of the input list — no entity is introduced. -/
theorem claim5_search_subset (projects : List Project) (query : String)
    (hq : query ≠ "") (p : Project) (hp : p ∈ searchProjects projects query) :
    p ∈ projects := by
  have hb : (query == "") = false := beq_eq_false_iff_ne.mpr hq
  simp only [searchProjects, hb] at hp
  exact (List.mem_filter.mp hp).1

/-- Witness for C5: a concrete non-empty query whose result is inhabited. -/
theorem claim5_witness : sampleProjectA ∈ [sampleProjectA] :=
  claim5_search_subset [sampleProjectA] "alp" (by decide) sampleProjectA (by decide)

/-- All six application orders of three conditional filter stages agree. -/
theorem condFilter_perm3 {α : Type} (b₁ b₂ b₃ : Bool) (p₁ p₂ p₃ : α → Bool)
    (l : List α) :
    condFilter b₃ p₃ (condFilter b₂ p₂ (condFilter b₁ p₁ l))
        = condFilter b₃ p₃ (condFilter b₁ p₁ (condFilter b₂ p₂ l)) ∧
    condFilter b₃ p₃ (condFilter b₂ p₂ (condFilter b₁ p₁ l))
        = condFilter b₂ p₂ (condFilter b₃ p₃ (condFilter b₁ p₁ l)) ∧
    condFilter b₃ p₃ (condFilter b₂ p₂ (condFilter b₁ p₁ l))
        = condFilter b₂ p₂ (condFilter b₁ p₁ (condFilter b₃ p₃ l)) ∧
    condFilter b₃ p₃ (condFilter b₂ p₂ (condFilter b₁ p₁ l))
        = condFilter b₁ p₁ (condFilter b₃ p₃ (condFilter b₂ p₂ l)) ∧
    condFilter b₃ p₃ (condFilter b₂ p₂ (condFilter b₁ p₁ l))
        = condFilter b₁ p₁ (condFilter b₂ p₂ (condFilter b₃ p₃ l)) := by
  have e1 : condFilter b₃ p₃ (condFilter b₂ p₂ (condFilter b₁ p₁ l))
      = condFilter b₃ p₃ (condFilter b₁ p₁ (condFilter b₂ p₂ l)) :=
    congrArg (condFilter b₃ p₃) (condFilter_swap b₂ b₁ p₂ p₁ l)
  have e2 : condFilter b₃ p₃ (condFilter b₂ p₂ (condFilter b₁ p₁ l))
      = condFilter b₂ p₂ (condFilter b₃ p₃ (condFilter b₁ p₁ l)) :=
    condFilter_swap b₃ b₂ p₃ p₂ (condFilter b₁ p₁ l)
  refine ⟨e1, e2, ?_, ?_, ?_⟩
  · exact e2.trans (congrArg (condFilter b₂ p₂) (condFilter_swap b₃ b₁ p₃ p₁ l))
  · exact e1.trans (condFilter_swap b₃ b₁ p₃ p₁ (condFilter b₂ p₂ l))
  · exact (e1.trans (condFilter_swap b₃ b₁ p₃ p₁ (condFilter b₂ p₂ l))).trans
      (congrArg (condFilter b₁ p₁) (condFilter_swap b₃ b₂ p₃ p₂ l))

/-- C6: the language, category and showFavorites predicates of
`applyFilters` commute — applying the three filter stages in any of the six
possible orders yields the same result list (the order in the code, language →
category → favorites, is the reference). -/
theorem claim6_filter_order_independence (f : Filters) (favorites : List String)
    (ps : List Project) :
    favoritesStage f favorites (categoryStage f (languageStage f ps))
        = favoritesStage f favorites (languageStage f (categoryStage f ps)) ∧
    favoritesStage f favorites (categoryStage f (languageStage f ps))
        = categoryStage f (favoritesStage f favorites (languageStage f ps)) ∧
    favoritesStage f favorites (categoryStage f (languageStage f ps))
        = categoryStage f (languageStage f (favoritesStage f favorites ps)) ∧
    favoritesStage f favorites (categoryStage f (languageStage f ps))
        = languageStage f (favoritesStage f favorites (categoryStage f ps)) ∧
    favoritesStage f favorites (categoryStage f (languageStage f ps))
        = languageStage f (categoryStage f (favoritesStage f favorites ps)) := by
  simp only [languageStage, categoryStage, favoritesStage]
  exact condFilter_perm3 _ _ _ _ _ _ ps

/-- C7: a sort string whose field part is not `stars`, `name` or `updated`
makes the comparator return 0 everywhere, so the (stable) sort stage of
`applyFilters` preserves the original relative order of the filtered
projects. -/
theorem claim7_unknown_sort_field_noop (localeCmp : String → String → Int)
    (dateVal : String → Int) (f : Filters) (ps : List Project) (fld : String)
    (hfld : ((jsSplit f.sort '-').get? 0).getD "" = fld)
    (h1 : fld ≠ "stars") (h2 : fld ≠ "name") (h3 : fld ≠ "updated") :
    sortStage localeCmp dateVal f ps = ps := by
  unfold sortStage
  cases hs : f.sort == "" with
  | true => simp [hs]
  | false =>
    simp only [hs, Bool.not_false, if_true]
    rw [hfld]
    apply stableSortBy_of_zero
    intro a b
    simp [projCmp, beq_eq_false_iff_ne.mpr h1, beq_eq_false_iff_ne.mpr h2,
      beq_eq_false_iff_ne.mpr h3]

/-- Witness for C7: a concrete unknown sort field on a list whose order a
real sort would change. -/
theorem claim7_witness :
    sortStage (fun _ _ => 0) (fun _ => 0) sampleUnknownSortFilters
      [sampleProjectA, sampleProjectB] = [sampleProjectA, sampleProjectB] :=
  claim7_unknown_sort_field_noop (fun _ _ => 0) (fun _ => 0) sampleUnknownSortFilters
    [sampleProjectA, sampleProjectB] "foo" (by decide) (by decide) (by decide) (by decide)

/-- C8 counterexample: the entity sent to the remote upsert is the unchanged
object supplied by the caller — when `id` and `created_at` are missing they are NOT
assigned before the network call, contradicting the claim. -/
theorem claim8_counterexample :
    (addProjectToApi (RemoteAddResult.returned true none) "1700000000000"
        "2024-01-02" sampleBlankProject []).1.id = ""
      ∧ (addProjectToApi (RemoteAddResult.returned true none) "1700000000000"
        "2024-01-02" sampleBlankProject []).1.created_at = "" := by
  constructor
  · rfl
  · rfl

/-- C8 amended: `addProjectToApi` sends the object supplied by the caller to
the remote unchanged; missing `id`/`created_at`/`updated_at` are assigned only when
the entity is appended to the local mirror by `addProject`, after the
network call. Every locally appended entity carries a non-empty id, a
non-empty `created_at` and `updated_at = today` (given non-empty generated
id and date). -/
theorem claim8_ids_assigned_on_local_append (remote : RemoteAddResult)
    (genId today : String) (pd : Project) (ps : List Project)
    (hg : genId ≠ "") (ht : today ≠ "") :
    (addProjectToApi remote genId today pd ps).1 = pd ∧
    (addProjectToApi remote genId today pd ps).2.1.take ps.length = ps ∧
    ((addProjectToApi remote genId today pd ps).2.1.drop ps.length).all
      (fun q => !(q.id == "") && (!(q.created_at == "") && (q.updated_at == today)))
      = true := by
  have hfields : ∀ base : Project,
      ((addProject genId today base ps).2.take ps.length = ps ∧
        ((addProject genId today base ps).2.drop ps.length).all
          (fun q => !(q.id == "") && (!(q.created_at == "") && (q.updated_at == today)))
          = true) := by
    intro base
    constructor
    · exact List.take_left ps _
    · rw [show (addProject genId today base ps).2
          = ps ++ [(addProject genId today base ps).1] from rfl]
      rw [List.drop_left ps _]
      simp [addProject, beq_eq_false_iff_ne.mpr (jsOrStr_ne_empty base.id genId hg),
        beq_eq_false_iff_ne.mpr (jsOrStr_ne_empty base.created_at today ht)]
  cases remote with
  | threw => exact ⟨rfl, (hfields pd).1, (hfields pd).2⟩
  | returned success proj =>
    cases success with
    | false =>
      refine ⟨rfl, ?_, ?_⟩
      · rw [show (addProjectToApi (RemoteAddResult.returned false proj) genId today
            pd ps).2.1 = ps from rfl]
        exact List.take_length ps
      · rw [show (addProjectToApi (RemoteAddResult.returned false proj) genId today
            pd ps).2.1 = ps from rfl]
        rw [List.drop_length]
        rfl
    | true => exact ⟨rfl, (hfields (proj.getD pd)).1, (hfields (proj.getD pd)).2⟩

/-- Witness for C8 (amended): creating a blank project while the remote
throws appends a locally completed entity. -/
theorem claim8_witness :
    (addProjectToApi RemoteAddResult.threw "1700000000000" "2024-01-02"
        sampleBlankProject []).1 = sampleBlankProject ∧
    (addProjectToApi RemoteAddResult.threw "1700000000000" "2024-01-02"
        sampleBlankProject []).2.1.take 0 = [] ∧
    ((addProjectToApi RemoteAddResult.threw "1700000000000" "2024-01-02"
        sampleBlankProject []).2.1.drop 0).all
      (fun q => !(q.id == "") && (!(q.created_at == "") && (q.updated_at == "2024-01-02")))
      = true :=
  claim8_ids_assigned_on_local_append RemoteAddResult.threw "1700000000000"
    "2024-01-02" sampleBlankProject [] (by decide) (by decide)

/-- C9: `get(key, default)` returns the caller-supplied default (and cannot
throw — it is a total function) both when nothing is stored under the key
and when the stored text fails to parse. -/
theorem claim9_get_returns_default {α : Type} (store : String → Option String)
    (parse : String → Option α) (key : String) (d : α)
    (h : store key = none ∨ ∃ t, store key = some t ∧ parse t = none) :
    rawGet store parse key d = d := by
  rcases h with h | ⟨t, ht, hp⟩
  · unfold rawGet
    rw [h]
  · unfold rawGet
    rw [ht]
    simp only [hp]

/-- Witness for C9: a missing key and an unparseable stored text. -/
theorem claim9_witness :
    rawGet (fun _ => none) (fun _ => (none : Option Nat)) "missing" 7 = 7 ∧
    rawGet (fun _ => some "not json") (fun _ => (none : Option Nat)) "bad" 7 = 7 :=
  ⟨claim9_get_returns_default _ _ _ _ (Or.inl rfl),
    claim9_get_returns_default _ _ _ _ (Or.inr ⟨"not json", rfl, rfl⟩)⟩

/-- C10: `toggleFavorite` returns `true` exactly when the id was not a
favorite before the call, and toggling the same id twice restores the
favorites set to exactly its original contents (as a set of ids; favorites
states are duplicate-free, which `toggleFavorite` itself preserves). -/
theorem claim10_toggle_favorite_involution (s : StorageState) (x : String)
    (h : (getFavorites s).Nodup) :
    ((toggleFavorite x s).2 = !(isFavorite x s)) ∧
    ((toggleFavorite x s).2 = true ↔ x ∉ getFavorites s) ∧
    (getFavorites (toggleFavorite x (toggleFavorite x s).1).1).Perm (getFavorites s) := by
  refine ⟨toggleFavList_snd x (getFavorites s), ?_, ?_⟩
  · show (toggleFavList x (getFavorites s)).2 = true ↔ _
    rw [toggleFavList_snd]
    simp
  · show (toggleFavList x (toggleFavList x (getFavorites s)).1).1.Perm (getFavorites s)
    exact toggleFavList_double_perm x (getFavorites s) h

/-- Witness for C10 at a concrete state whose favorites contain the id. -/
theorem claim10_witness :
    ((toggleFavorite "1" sampleState).2 = !(isFavorite "1" sampleState)) ∧
    ((toggleFavorite "1" sampleState).2 = true ↔ "1" ∉ getFavorites sampleState) ∧
    (getFavorites (toggleFavorite "1" (toggleFavorite "1" sampleState).1).1).Perm
      (getFavorites sampleState) :=
  claim10_toggle_favorite_involution sampleState "1" (by decide)
